import Mathlib

/-!
Verification development for the read-pinia repository: a shallow embedding
of the store runtime (merge engine, patch/subscribe machinery, action
wrapping, store registry and accessor) together with theorems settling the
specified properties against that embedding.

JavaScript objects are modelled as trees carrying an explicit identity tag
(`oid`): mutating an object in place is modelled as producing a value with
the same `oid`, while allocating a new object produces a fresh one.
-/

namespace ReadPinia

/-- Primitive JavaScript values (no object identity). -/
inductive Prim where
  | undefined
  | nullV
  | boolV (b : Bool)
  | num (n : Int)
  | str (s : String)
deriving DecidableEq, Repr

/-- JavaScript values as the store runtime sees them.  Heap objects carry an
explicit identity `oid`.  The booleans record what the host reactivity layer
reports for the object: `plainTag` is the result of `isPlainObject`,
`refTag` of `isRef`, `reactiveTag` of `isReactive` (these are independent in
Vue: a ref and a reactive proxy both stringify as a plain object). -/
inductive JVal where
  | prim (p : Prim)
  | obj (oid : Nat) (plainTag refTag reactiveTag : Bool)
      (fields : List (String × JVal))
  | mapV (oid : Nat) (entries : List (JVal × JVal))
  | setV (oid : Nat) (elems : List JVal)
deriving Repr

mutual

/-- Structural equality of JavaScript values; object identities are part of
the value, so this is exactly the SameValueZero test used by Map keys and
Set elements (distinct objects have distinct `oid`). -/
def jvalBeq : JVal → JVal → Bool
  | .prim p, .prim q => p == q
  | .obj o1 p1 r1 a1 f1, .obj o2 p2 r2 a2 f2 =>
      o1 == o2 && p1 == p2 && r1 == r2 && a1 == a2 && fieldsBeq f1 f2
  | .mapV o1 e1, .mapV o2 e2 => o1 == o2 && entriesBeq e1 e2
  | .setV o1 l1, .setV o2 l2 => o1 == o2 && elemsBeq l1 l2
  | _, _ => false
termination_by v _ => sizeOf v

/-- Pointwise `jvalBeq` on property tables. -/
def fieldsBeq : List (String × JVal) → List (String × JVal) → Bool
  | [], [] => true
  | (k1, v1) :: r1, (k2, v2) :: r2 =>
      k1 == k2 && jvalBeq v1 v2 && fieldsBeq r1 r2
  | _, _ => false
termination_by l _ => sizeOf l

/-- Pointwise `jvalBeq` on Map entry lists. -/
def entriesBeq : List (JVal × JVal) → List (JVal × JVal) → Bool
  | [], [] => true
  | (k1, v1) :: r1, (k2, v2) :: r2 =>
      jvalBeq k1 k2 && jvalBeq v1 v2 && entriesBeq r1 r2
  | _, _ => false
termination_by l _ => sizeOf l

/-- Pointwise `jvalBeq` on Set element lists. -/
def elemsBeq : List JVal → List JVal → Bool
  | [], [] => true
  | v1 :: r1, v2 :: r2 => jvalBeq v1 v2 && elemsBeq r1 r2
  | _, _ => false
termination_by l _ => sizeOf l

end

/-- `isPlainObject(o)` from the pinia utilities. -/
def isPlainObject : JVal → Bool
  | .obj _ plainTag _ _ _ => plainTag
  | _ => false

/-- `isRef(o)` from the reactivity provider. -/
def isRef : JVal → Bool
  | .obj _ _ refTag _ _ => refTag
  | _ => false

/-- `isReactive(o)` from the reactivity provider. -/
def isReactive : JVal → Bool
  | .obj _ _ _ reactiveTag _ => reactiveTag
  | _ => false

/-- The identity of a value: objects, Maps and Sets have one, primitives do
not.  Two reads observe "the same object" exactly when the `rootId` agrees. -/
def rootId : JVal → Option Nat
  | .prim _ => none
  | .obj oid _ _ _ _ => some oid
  | .mapV oid _ => some oid
  | .setV oid _ => some oid

/-- String-keyed association-list read (property tables hold each key once,
as JavaScript objects do), shared by the property tables, the state tree and
the instance map. -/
def alistGet? {α : Type} : List (String × α) → String → Option α
  | [], _ => none
  | kv :: rest, k => if kv.1 == k then some kv.2 else alistGet? rest k

/-- String-keyed association-list membership. -/
def alistHas {α : Type} : List (String × α) → String → Bool
  | [], _ => false
  | kv :: rest, k => kv.1 == k || alistHas rest k

/-- String-keyed association-list write: an existing key keeps its slot
(JavaScript preserves insertion order), a new key is appended. -/
def alistSet {α : Type} : List (String × α) → String → α → List (String × α)
  | [], k, v => [(k, v)]
  | kv :: rest, k, v =>
      if kv.1 == k then (k, v) :: rest else kv :: alistSet rest k v

/-- `target.hasOwnProperty(key)`. -/
def hasOwn : JVal → String → Bool
  | .obj _ _ _ _ fields, k => alistHas fields k
  | _, _ => false

/-- Property read `target[key]`; a missing property reads as `undefined`. -/
def getField : JVal → String → JVal
  | .obj _ _ _ _ fields, k => (alistGet? fields k).getD (.prim .undefined)
  | _, _ => .prim .undefined

/-- Property write `target[key] = v`.  Only plain property tables are
modelled; property writes on primitives, Maps and Sets are not exercised by
this development. -/
def setField : JVal → String → JVal → JVal
  | .obj oid pt rt ra fields, k, v => .obj oid pt rt ra (alistSet fields k v)
  | t, _, _ => t

/-- `Map.prototype.set` on an entry list (keys compared with SameValueZero,
`jvalBeq` here): an existing key keeps its slot and its original key object,
only the value is replaced; a new key is appended (JavaScript Maps preserve
insertion order). -/
def mapSet : List (JVal × JVal) → JVal → JVal → List (JVal × JVal)
  | [], k, v => [(k, v)]
  | e :: rest, k, v =>
      if jvalBeq e.1 k then (e.1, v) :: rest else e :: mapSet rest k v

/-- `Set.prototype.add`: append the element if not already present. -/
def setAdd : List JVal → JVal → List JVal
  | [], v => [v]
  | e :: rest, v => if jvalBeq e v then e :: rest else e :: setAdd rest v

/-- First conditional of `mergeReactiveObjects`: if both target and patch are
Maps, every patch entry is `set` into the target in place. -/
def mergeMapStep (target patchToApply : JVal) : JVal :=
  match target, patchToApply with
  | .mapV oid entries, .mapV _ pes =>
      .mapV oid (pes.foldl (fun es e => mapSet es e.1 e.2) entries)
  | t, _ => t

/-- Second conditional of `mergeReactiveObjects`: if both target and patch
are Sets, every patch element is `add`ed into the target in place. -/
def mergeSetStep (target patchToApply : JVal) : JVal :=
  match target, patchToApply with
  | .setV oid elems, .setV _ pes => .setV oid (pes.foldl setAdd elems)
  | t, _ => t

mutual

/-- `mergeReactiveObjects(target, patchToApply)` from the source: the Map and
Set conditionals run first, then the `for key in patchToApply` loop walks the
own-enumerable string properties of the patch (only plain property tables
have any, so the loop body only runs for an `obj` patch; the
`hasOwnProperty` guard of the loop is the identity here because the modelled
field list holds exactly the own properties). -/
def mergeReactiveObjects (target patchToApply : JVal) : JVal :=
  let t2 := mergeSetStep (mergeMapStep target patchToApply) patchToApply
  match patchToApply with
  | .obj _ _ _ _ pfields => mergeFields t2 pfields
  | _ => t2
termination_by sizeOf patchToApply

/-- The `for key in patchToApply` loop body of `mergeReactiveObjects`: for
each patch key in order, recurse in place when the existing value and the
incoming value are both plain objects, the key exists on the target, and the
incoming value is neither a ref nor reactive; otherwise overwrite. -/
def mergeFields (tgt : JVal) (pfields : List (String × JVal)) : JVal :=
  match pfields with
  | [] => tgt
  | (key, subPatch) :: rest =>
      let targetValue := getField tgt key
      let tgt' :=
        if isPlainObject targetValue && isPlainObject subPatch &&
            hasOwn tgt key && !(isRef subPatch) && !(isReactive subPatch)
        then setField tgt key (mergeReactiveObjects targetValue subPatch)
        else setField tgt key subPatch
      mergeFields tgt' rest
termination_by sizeOf pfields

end

/-- `Object.assign(target, source)`: copy every own enumerable property of
the source onto the target in place, in source order.  Non-object sources
are not exercised by this development. -/
def objAssign (target source : JVal) : JVal :=
  match source with
  | .obj _ _ _ _ sfields => sfields.foldl (fun t kv => setField t kv.1 kv.2) target
  | _ => target

/-- `addSubscription` from `subscriptions.ts`: the callback is pushed at the
end of the list, so notification order is registration order.  Callbacks are
identified by an abstract id.  (The returned remover and the scope-dispose
hook are not needed by the claims settled here.) -/
def addSubscription (subscriptions : List Nat) (callback : Nat) : List Nat :=
  subscriptions ++ [callback]

/-- `triggerSubscriptions(subscriptions, ...args)` from `subscriptions.ts`:
`subscriptions.slice().forEach((callback) => callback(...args))`.  The
dispatch is modelled by the ordered list of calls it performs; `drop 0`
models the defensive `slice()` copy. -/
def triggerSubscriptions {β γ : Type} (subscriptions : List β) (call : β → γ) :
    List γ :=
  (subscriptions.drop 0).foldl (fun acc cb => acc ++ [call cb]) []

theorem triggerSubscriptions_eq_map {β γ : Type} (subs : List β) (call : β → γ) :
    triggerSubscriptions subs call = subs.map call := by
  unfold triggerSubscriptions
  rw [List.drop_zero]
  induction subs using List.reverseRecOn with
  | nil => rfl
  | append_singleton xs x ih => rw [List.foldl_append, List.map_append, ih]; rfl

/-- `MutationType` from `types.ts`. -/
inductive MutationType where
  | direct
  | patchObject
  | patchFunction
deriving DecidableEq, Repr

/-- The mutation event handed to state-change subscribers
(`SubscriptionCallbackMutation`); `payload` is the partial-state object for
the `patchObject` kind.  The dev-only `events` trace is not modelled. -/
structure Mutation where
  type : MutationType
  storeId : String
  payload : Option JVal
deriving Repr

/-- One notification delivered to a state-change subscriber: the callback,
the mutation event, and the state passed alongside. -/
structure SubCall where
  callback : Nat
  mutation : Mutation
  state : JVal
deriving Repr

/-- The mutable context of one store inside `createSetupStore`:
the registry state tree (`pinia.state.value`), the store's id, the
state-change subscription list, the two listening flags, the active-listener
token (`activeListener`), a supply of fresh tokens standing in for
`Symbol()`, and the queue of `nextTick` continuations scheduled by `$patch`,
each holding the token it captured (`myListenerId`). -/
structure StoreCtx where
  storeId : String
  stateTree : List (String × JVal)
  subscriptions : List Nat
  isListening : Bool
  isSyncListening : Bool
  activeListener : Option Nat
  nextToken : Nat
  tickQueue : List Nat
deriving Repr

/-- Read of the shared state slot `pinia.state.value[$id]` (a missing slot
reads as `undefined`). -/
def lookupTree (t : List (String × JVal)) (k : String) : JVal :=
  (alistGet? t k).getD (.prim .undefined)

/-- Write of the shared state slot `pinia.state.value[$id] = v`. -/
def setTree (t : List (String × JVal)) (k : String) (v : JVal) :
    List (String × JVal) :=
  alistSet t k v

/-- The `$state` accessor installed with `Object.defineProperty`: its getter
returns `pinia.state.value[$id]` (the non-hot branch; hot reloading is dev
tooling outside this model). -/
def stateGet (s : StoreCtx) : JVal :=
  lookupTree s.stateTree s.storeId

/-- Argument of `$patch`: either a partial-state object or a mutator
function.  A JavaScript mutator mutates the state slot it is handed through
that reference, which the value semantics renders as the function from the
old slot value to the new one. -/
inductive PatchArg where
  | byObject (partialState : JVal)
  | byFunction (stateMutation : JVal → JVal)

/-- `$patch(partialStateOrMutator)` from `createSetupStore`, in source
order: set `isListening = isSyncListening = false`; apply the mutator to
`pinia.state.value[$id]` (function form) or merge the partial state into it
with `mergeReactiveObjects` (object form), building the matching
`subscriptionMutation`; install a fresh token as `activeListener` and
schedule the `nextTick` continuation that re-enables `isListening` only if
its token is still the active one; set `isSyncListening = true`; finally and
unconditionally run `triggerSubscriptions` with the accumulated mutation and
the new state.  Returns the new context, the mutation event, and the ordered
list of subscriber calls performed. -/
def patchStore (s : StoreCtx) (arg : PatchArg) : StoreCtx × Mutation × List SubCall :=
  let slot := lookupTree s.stateTree s.storeId
  let applied :=
    match arg with
    | .byFunction stateMutation =>
        (stateMutation slot,
         Mutation.mk .patchFunction s.storeId none)
    | .byObject partialState =>
        (mergeReactiveObjects slot partialState,
         Mutation.mk .patchObject s.storeId (some partialState))
  let newSlot := applied.1
  let subscriptionMutation := applied.2
  let myListenerId := s.nextToken
  let s' : StoreCtx :=
    { s with
      stateTree := setTree s.stateTree s.storeId newSlot
      isListening := false
      isSyncListening := true
      activeListener := some myListenerId
      nextToken := s.nextToken + 1
      tickQueue := s.tickQueue ++ [myListenerId] }
  let calls := triggerSubscriptions s.subscriptions
    (fun cb => SubCall.mk cb subscriptionMutation newSlot)
  (s', subscriptionMutation, calls)

/-- Delivery of the oldest pending `nextTick` continuation scheduled by
`$patch`: `if (activeListener === myListenerId) isListening = true`. -/
def runTickTask (s : StoreCtx) : StoreCtx :=
  match s.tickQueue with
  | [] => s
  | myListenerId :: rest =>
      if s.activeListener = some myListenerId
      then { s with tickQueue := rest, isListening := true }
      else { s with tickQueue := rest }

/-- `$reset` on an options-declared store: re-run the declared
state-initializer and apply the fresh initial state through
`this.$patch(($state) => assign($state, newState))`. -/
def resetOptionsStore (s : StoreCtx) (stateInit : Unit → JVal) :
    StoreCtx × Mutation × List SubCall :=
  let newState := stateInit ()
  patchStore s (.byFunction (fun st => objAssign st newState))

/-- `$reset` on a setup-declared store: in a dev build it throws
(`🍍: Store "id" is built using the setup syntax and does not implement
$reset().`); in a production build it is the silent `noop`. -/
def resetSetupStore (dev : Bool) (id : String) : Except String Unit :=
  if dev
  then .error ("🍍: Store \"" ++ id ++
    "\" is built using the setup syntax and does not implement $reset().")
  else .ok ()

/-- What a wrapped action body does once invoked, as observed from outside:
it either returns a plain value, throws synchronously, or returns a promise
that later resolves or rejects. -/
inductive ActionBehavior (α ε : Type) where
  | returns (v : α)
  | throws (e : ε)
  | promiseResolves (v : α)
  | promiseRejects (e : ε)

/-- One invocation of a wrapped action: the `after` and `onError` hooks that
got registered during this invocation (pushed by action subscribers at
notification time or by the action body itself; hooks are abstract ids in
registration order), and the observable behavior of the body. -/
structure ActionRun (α ε : Type) where
  afterHooks : List Nat
  errorHooks : List Nat
  behavior : ActionBehavior α ε

/-- A call to an `after` or `onError` hook, with the argument it received. -/
inductive HookCall (α ε : Type) where
  | afterCall (hook : Nat) (value : α)
  | errorCall (hook : Nat) (err : ε)
deriving DecidableEq, Repr

/-- What the wrapped action's caller observes synchronously. -/
inductive SyncOutcome (α ε : Type) where
  | value (v : α)
  | thrown (e : ε)
  | pending
deriving DecidableEq, Repr

/-- The full observable effect of one wrapped-action invocation, in temporal
order: first the action-subscriber notifications, then the hook calls fired
synchronously (`syncCalls`), then the synchronous outcome handed to the
caller; for a promise the continuations attached by the wrapper fire
`settledCalls` at settlement and the caller's promise settles with
`settledOutcome`. -/
structure WrapResult (α ε : Type) where
  actionListenerCalls : List Nat
  syncCalls : List (HookCall α ε)
  outcome : SyncOutcome α ε
  settledCalls : List (HookCall α ε)
  settledOutcome : Option (Except ε α)

/-- `wrapAction(name, action)` from `createSetupStore`, invocation view:
notify the action subscribers (each receives `after`/`onError` registrars);
run the body inside `try`; on a synchronous throw
`triggerSubscriptions(onErrorCallbackList, error); throw error`; if the
result is a Promise, attach `.then((value) => trigger after; return value)`
and `.catch((error) => trigger onError; return Promise.reject(error))`;
otherwise trigger the `after` hooks with the return value and return it. -/
def wrapAction {α ε : Type} (actionSubscriptions : List Nat)
    (run : ActionRun α ε) : WrapResult α ε :=
  let actionListenerCalls := triggerSubscriptions actionSubscriptions id
  match run.behavior with
  | .throws e =>
      { actionListenerCalls := actionListenerCalls
        syncCalls := triggerSubscriptions run.errorHooks
          (fun h => HookCall.errorCall h e)
        outcome := .thrown e
        settledCalls := []
        settledOutcome := none }
  | .returns v =>
      { actionListenerCalls := actionListenerCalls
        syncCalls := triggerSubscriptions run.afterHooks
          (fun h => HookCall.afterCall h v)
        outcome := .value v
        settledCalls := []
        settledOutcome := none }
  | .promiseResolves v =>
      { actionListenerCalls := actionListenerCalls
        syncCalls := []
        outcome := .pending
        settledCalls := triggerSubscriptions run.afterHooks
          (fun h => HookCall.afterCall h v)
        settledOutcome := some (.ok v) }
  | .promiseRejects e =>
      { actionListenerCalls := actionListenerCalls
        syncCalls := []
        outcome := .pending
        settledCalls := triggerSubscriptions run.errorHooks
          (fun h => HookCall.errorCall h e)
        settledOutcome := some (.error e) }

/-- The dev warning printed by the getter loop of `createOptionsStore` when
a getter name collides with a state property. -/
def getterCollisionWarning (name id : String) : String :=
  "[🍍]: A getter cannot have the same name as another state property. " ++
    "Rename one of them. Found with \"" ++ name ++ "\" in store \"" ++ id ++ "\"."

/-- The `Object.keys(getters || \x7b\x7d).reduce` loop of
`createOptionsStore`: every getter is turned into a computed and stored
under its name unconditionally; when the build is a dev build and the name
already exists in `localState`, a warning is printed first.  The loop never
throws: it returns the names of the built computed getters together with the
warnings emitted. -/
def buildOptionsGetters (dev : Bool) (id : String)
    (localStateKeys : List String) : List String → List String × List String
  | [] => ([], [])
  | name :: rest =>
      let warnsHere :=
        if dev && localStateKeys.contains name
        then [getterCollisionWarning name id]
        else []
      let tail := buildOptionsGetters dev id localStateKeys rest
      (name :: tail.1, warnsHere ++ tail.2)

/-- JavaScript truthiness of the values the runtime branches on. -/
def jsTruthy : JVal → Bool
  | .prim .undefined => false
  | .prim .nullV => false
  | .prim (.boolV b) => b
  | .prim (.num n) => n != 0
  | .prim (.str s) => s != ""
  | _ => true

/-- The registry (`pinia` instance) as far as store creation is concerned:
the shared state tree `pinia.state.value` and the id-to-instance map
`pinia._s`.  Store instances are identified by the identity of the store
object, an abstract Nat. -/
structure Registry where
  stateTree : List (String × JVal)
  instances : List (String × Nat)
deriving Repr

/-- A supply of fresh object identities (`Symbol()`-like allocation). -/
structure World where
  fresh : Nat
deriving Repr, DecidableEq

/-- `pinia._s.get(id)`. -/
def lookupInst (l : List (String × Nat)) (k : String) : Option Nat :=
  alistGet? l k

/-- `pinia._s.set(id, store)` (last register wins). -/
def setInst (l : List (String × Nat)) (k : String) (v : Nat) :
    List (String × Nat) :=
  alistSet l k v

/-- The prefix of `createSetupStore` that runs strictly before the setup
function: read `initialState = pinia.state.value[$id]` and initialize an
empty reactive state slot when it is missing; build the partial store object
(`partialStore` wrapped in `reactive`, a fresh heap object) and register it
with `pinia._s.set($id, store)`.  The counter allocates the slot identity
and the store-object identity; it is bumped by two unconditionally so the
allocation is a plain name supply. -/
def registerPartial (id : String) (r : Registry) (w : World) :
    Nat × Registry × World :=
  let r1 :=
    if jsTruthy (lookupTree r.stateTree id)
    then r
    else { r with stateTree := setTree r.stateTree id (.obj w.fresh true false true []) }
  let instId := w.fresh + 1
  (instId,
   { r1 with instances := setInst r1.instances id instId },
   World.mk (w.fresh + 2))

/-- `createSetupStore($id, setup, ...)`, skeleton relevant to registration
order: register the partial store first, then run the setup body, which may
itself read and extend the registry (the store-body wiring that follows —
assigning the setup result onto the store, `$state`, plugins — is modelled
separately above and does not touch the instance map). -/
def createSetupStore (id : String) (setup : Registry → World → Registry × World)
    (r : Registry) (w : World) : Nat × Registry × World :=
  let t := registerPartial id r w
  let u := setup t.2.1 t.2.2
  (t.1, u.1, u.2)

/-- The accessor `useStore(pinia)` returned by `defineStore`, against an
explicit registry: when `pinia._s` has no instance for the id, build one via
the store factory; then return `pinia._s.get(id)` (`getD 0` renders the
non-null assertion of `pinia._s.get(id)!`). -/
def useStore (id : String) (setup : Registry → World → Registry × World)
    (r : Registry) (w : World) : Nat × Registry × World :=
  let built :=
    if (lookupInst r.instances id).isSome
    then (r, w)
    else
      let t := createSetupStore id setup r w
      (t.2.1, t.2.2)
  ((lookupInst built.1.instances id).getD 0, built.1, built.2)

theorem alistGet?_alistSet_self {α : Type} (l : List (String × α)) (k : String)
    (v : α) :
    alistGet? (alistSet l k v) k = some v := by
  induction l with
  | nil => simp [alistSet, alistGet?]
  | cons kv rest ih =>
      by_cases hk : kv.1 = k <;> simp [alistSet, alistGet?, hk, ih]

theorem alistGet?_alistSet_ne {α : Type} (l : List (String × α)) (k' k : String)
    (v : α) (h : k' ≠ k) :
    alistGet? (alistSet l k' v) k = alistGet? l k := by
  induction l with
  | nil => simp [alistSet, alistGet?, h]
  | cons kv rest ih =>
      by_cases hk : kv.1 = k' <;> by_cases hp : kv.1 = k <;>
        simp_all [alistSet, alistGet?]

theorem getField_setField_self (oid : Nat) (pt rt ra : Bool)
    (fields : List (String × JVal)) (k : String) (v : JVal) :
    getField (setField (.obj oid pt rt ra fields) k v) k = v := by
  simp [setField, getField, alistGet?_alistSet_self]

theorem getField_setField_ne (t : JVal) (k' k : String) (v : JVal)
    (h : k' ≠ k) :
    getField (setField t k' v) k = getField t k := by
  cases t <;> try rfl
  case obj oid pt rt ra fields =>
    simp [setField, getField, alistGet?_alistSet_ne fields k' k v h]

theorem lookupTree_setTree_self (t : List (String × JVal)) (k : String)
    (v : JVal) :
    lookupTree (setTree t k v) k = v := by
  simp [lookupTree, setTree, alistGet?_alistSet_self]

theorem lookupInst_setInst_self (l : List (String × Nat)) (k : String)
    (v : Nat) :
    lookupInst (setInst l k v) k = some v := by
  simp [lookupInst, setInst, alistGet?_alistSet_self]

theorem rootId_setField (t : JVal) (k : String) (v : JVal) :
    rootId (setField t k v) = rootId t := by
  cases t <;> simp [setField, rootId]

theorem rootId_mergeMapStep (t p : JVal) :
    rootId (mergeMapStep t p) = rootId t := by
  cases t <;> cases p <;> simp [mergeMapStep, rootId]

theorem rootId_mergeSetStep (t p : JVal) :
    rootId (mergeSetStep t p) = rootId t := by
  cases t <;> cases p <;> simp [mergeSetStep, rootId]

theorem rootId_mergeFields (pfields : List (String × JVal)) (t : JVal) :
    rootId (mergeFields t pfields) = rootId t := by
  induction pfields generalizing t with
  | nil => simp only [mergeFields]
  | cons kv rest ih =>
      obtain ⟨key, subPatch⟩ := kv
      simp only [mergeFields]
      rw [ih]
      split <;> rw [rootId_setField]

/-- The merge engine never replaces the target: the returned value has the
identity of the target it was given. -/
theorem rootId_mergeReactiveObjects (t p : JVal) :
    rootId (mergeReactiveObjects t p) = rootId t := by
  have h2 : rootId (mergeSetStep (mergeMapStep t p) p) = rootId t := by
    rw [rootId_mergeSetStep, rootId_mergeMapStep]
  cases p <;> simp only [mergeReactiveObjects, rootId_mergeFields, h2]

@[simp] theorem mergeMapStep_obj (t : JVal) (oid : Nat) (b1 b2 b3 : Bool)
    (fs : List (String × JVal)) :
    mergeMapStep t (.obj oid b1 b2 b3 fs) = t := by
  cases t <;> rfl

@[simp] theorem mergeSetStep_obj (t : JVal) (oid : Nat) (b1 b2 b3 : Bool)
    (fs : List (String × JVal)) :
    mergeSetStep t (.obj oid b1 b2 b3 fs) = t := by
  cases t <;> rfl

/-- On a plain-object patch the Map and Set conditionals are skipped and the
merge is exactly the key loop. -/
theorem mergeReactiveObjects_obj (t : JVal) (oid : Nat) (b1 b2 b3 : Bool)
    (fs : List (String × JVal)) :
    mergeReactiveObjects t (.obj oid b1 b2 b3 fs) = mergeFields t fs := by
  simp only [mergeReactiveObjects, mergeMapStep_obj, mergeSetStep_obj]

theorem getField_mergeFields_notMem (pfields : List (String × JVal))
    (tgt : JVal) (k : String) (h : ∀ kv ∈ pfields, kv.1 ≠ k) :
    getField (mergeFields tgt pfields) k = getField tgt k := by
  induction pfields generalizing tgt with
  | nil => simp only [mergeFields]
  | cons kv rest ih =>
      obtain ⟨key, subPatch⟩ := kv
      have hkey : key ≠ k := h (key, subPatch) (List.mem_cons_self _ _)
      simp only [mergeFields]
      rw [ih _ (fun kv hm => h kv (List.mem_cons_of_mem _ hm))]
      split <;> rw [getField_setField_ne _ _ _ _ hkey]

/-- Keys of the target that the patch does not mention are left untouched by
the merge. -/
theorem getField_mergeReactiveObjects_notMem (t : JVal) (oid : Nat)
    (b1 b2 b3 : Bool) (pfields : List (String × JVal)) (k : String)
    (h : ∀ kv ∈ pfields, kv.1 ≠ k) :
    getField (mergeReactiveObjects t (.obj oid b1 b2 b3 pfields)) k =
      getField t k := by
  rw [mergeReactiveObjects_obj, getField_mergeFields_notMem _ _ _ h]

/-- The partial store is registered under its id by `registerPartial` (the
identity it carries is the one the tuple returns). -/
theorem registerPartial_lookup (id : String) (r : Registry) (w : World) :
    lookupInst ((registerPartial id r w).2.1).instances id =
      some ((registerPartial id r w).1) := by
  by_cases hslot : jsTruthy (lookupTree r.stateTree id) <;>
    simp [registerPartial, hslot, lookupInst_setInst_self]

/-- The accessor on a registry that already holds an instance for the id
returns that instance and builds nothing. -/
theorem useStore_cached (id : String)
    (setup : Registry → World → Registry × World) (r : Registry) (w : World)
    (i : Nat) (h : lookupInst r.instances id = some i) :
    useStore id setup r w = (i, r, w) := by
  simp [useStore, h]

/-- The accessor on a registry with no instance for the id builds one via
`createSetupStore` and returns the identity registered there. -/
theorem useStore_create (id : String)
    (setup : Registry → World → Registry × World) (r : Registry) (w : World)
    (hN : lookupInst r.instances id = none)
    (hP : lookupInst
        ((setup (registerPartial id r w).2.1
          (registerPartial id r w).2.2).1).instances id =
      some ((registerPartial id r w).1)) :
    useStore id setup r w =
      ((registerPartial id r w).1,
       (setup (registerPartial id r w).2.1 (registerPartial id r w).2.2).1,
       (setup (registerPartial id r w).2.1 (registerPartial id r w).2.2).2) := by
  simp [useStore, createSetupStore, hN, hP]

/-- C1: Identity stability.  Reading `store.$state` yields exactly the
registry's shared state slot `pinia.state.value[id]`, before and after any
`$patch` call (object form or mutator-function form), and the patch never
replaces that slot with a new object: the slot's identity is the same after
the call as before (the object form goes through `mergeReactiveObjects`,
which mutates in place; the mutator form mutates through the reference it is
handed, which cannot change the slot's identity — the hypothesis renders
that in value semantics). -/
theorem patch_preserves_state_identity (s : StoreCtx) (arg : PatchArg)
    (hfun : ∀ f, arg = PatchArg.byFunction f →
      rootId (f (stateGet s)) = rootId (stateGet s)) :
    stateGet s = lookupTree s.stateTree s.storeId ∧
    stateGet (patchStore s arg).1 =
      lookupTree (patchStore s arg).1.stateTree s.storeId ∧
    rootId (stateGet (patchStore s arg).1) = rootId (stateGet s) := by
  cases arg with
  | byObject p =>
      refine ⟨rfl, rfl, ?_⟩
      have e : stateGet (patchStore s (.byObject p)).1
          = mergeReactiveObjects (stateGet s) p := by
        simp [patchStore, stateGet, lookupTree_setTree_self]
      rw [e, rootId_mergeReactiveObjects]
  | byFunction f =>
      refine ⟨rfl, rfl, ?_⟩
      have e : stateGet (patchStore s (.byFunction f)).1 = f (stateGet s) := by
        simp [patchStore, stateGet, lookupTree_setTree_self]
      rw [e]
      exact hfun f rfl

/-- Witness for C1 at a concrete store and object patch. -/
theorem patch_preserves_state_identity_witness :
    rootId (stateGet (patchStore
        (StoreCtx.mk "main"
          [("main", .obj 7 true false true [("count", .prim (.num 0))])]
          [] true true none 0 [])
        (.byObject (.obj 8 true false false [("count", .prim (.num 5))]))).1) =
      rootId (stateGet
        (StoreCtx.mk "main"
          [("main", .obj 7 true false true [("count", .prim (.num 0))])]
          [] true true none 0 [])) :=
  (patch_preserves_state_identity _ _
    (fun _ h => PatchArg.noConfusion h)).2.2

/-- C2: Merge engine semantics.  `mergeReactiveObjects(target, patch)`
returns the very same target (same identity); keys of the target not
mentioned by the patch are never deleted or modified; when the incoming
value is not a plain object it overwrites, including `undefined`; nested
plain objects are patched in place (the `a:1, b:(c:2)` / patch `b:(c:3)`
example, target identities preserved at every level); Map entries and Set
elements of the patch are set/added into the target in place. -/
theorem mergeReactiveObjects_spec :
    (∀ t p : JVal, rootId (mergeReactiveObjects t p) = rootId t) ∧
    (∀ (t : JVal) (oid : Nat) (b1 b2 b3 : Bool)
        (pfields : List (String × JVal)) (k : String),
      (∀ kv ∈ pfields, kv.1 ≠ k) →
      getField (mergeReactiveObjects t (.obj oid b1 b2 b3 pfields)) k =
        getField t k) ∧
    (∀ (oid : Nat) (pt rt ra : Bool) (fields : List (String × JVal))
        (k : String) (poid : Nat),
      getField (mergeReactiveObjects (.obj oid pt rt ra fields)
        (.obj poid true false false [(k, .prim .undefined)])) k = .prim .undefined) ∧
    (∀ o1 o2 o3 o4 : Nat,
      mergeReactiveObjects
        (.obj o1 true false true
          [("a", .prim (.num 1)),
           ("b", .obj o2 true false true [("c", .prim (.num 2))])])
        (.obj o3 true false false
          [("b", .obj o4 true false false [("c", .prim (.num 3))])]) =
        (.obj o1 true false true
          [("a", .prim (.num 1)),
           ("b", .obj o2 true false true [("c", .prim (.num 3))])])) ∧
    (∀ o1 o2 : Nat,
      mergeReactiveObjects
        (.mapV o1 [(.prim (.num 1), .prim (.str "x"))])
        (.mapV o2 [(.prim (.num 1), .prim (.str "y")),
                   (.prim (.num 2), .prim (.str "z"))]) =
        (.mapV o1 [(.prim (.num 1), .prim (.str "y")),
                   (.prim (.num 2), .prim (.str "z"))])) ∧
    (∀ o1 o2 : Nat,
      mergeReactiveObjects
        (.setV o1 [.prim (.num 1)])
        (.setV o2 [.prim (.num 1), .prim (.num 2)]) =
        (.setV o1 [.prim (.num 1), .prim (.num 2)])) := by
  refine ⟨rootId_mergeReactiveObjects, ?_, ?_, ?_, ?_, ?_⟩
  · intro t oid b1 b2 b3 pfields k h
    exact getField_mergeReactiveObjects_notMem t oid b1 b2 b3 pfields k h
  · intro oid pt rt ra fields k poid
    rw [mergeReactiveObjects_obj]
    simp only [mergeFields, isPlainObject, Bool.false_and, Bool.and_false]
    rw [if_neg (by simp)]
    exact getField_setField_self oid pt rt ra fields k (.prim .undefined)
  · intro o1 o2 o3 o4
    simp [mergeReactiveObjects, mergeFields, getField, setField, hasOwn,
      isPlainObject, isRef, isReactive, alistGet?, alistHas, alistSet]
  · intro o1 o2
    simp [mergeReactiveObjects, mergeMapStep, mergeSetStep, mapSet, jvalBeq]
  · intro o1 o2
    simp [mergeReactiveObjects, mergeMapStep, mergeSetStep, setAdd, jvalBeq]

/-- Witness for C2's untouched-key clause at a concrete target and patch. -/
theorem mergeReactiveObjects_spec_witness :
    getField (mergeReactiveObjects
        (.obj 1 true false true [("a", .prim (.num 1))])
        (.obj 2 true false false [("b", .prim (.num 5))])) "a" =
      getField (.obj 1 true false true [("a", .prim (.num 1))]) "a" :=
  mergeReactiveObjects_spec.2.1 _ 2 true false false _ "a" (by simp)

/-- C3: Subscriber fan-out.  One `$patch` call synchronously notifies every
registered state-change subscriber exactly once, in registration order, with
one mutation event whose kind is `patchObject` for the object form and
`patchFunction` for the mutator form; the notification list depends only on
the subscription list and the mutation, not on the listening flags the patch
temporarily disabled. -/
theorem patch_subscriber_fanout :
    (∀ (s : StoreCtx) (p : JVal),
      (patchStore s (.byObject p)).2 =
        (Mutation.mk .patchObject s.storeId (some p),
         s.subscriptions.map (fun cb =>
           SubCall.mk cb (Mutation.mk .patchObject s.storeId (some p))
             (mergeReactiveObjects (stateGet s) p)))) ∧
    (∀ (s : StoreCtx) (f : JVal → JVal),
      (patchStore s (.byFunction f)).2 =
        (Mutation.mk .patchFunction s.storeId none,
         s.subscriptions.map (fun cb =>
           SubCall.mk cb (Mutation.mk .patchFunction s.storeId none)
             (f (stateGet s))))) ∧
    (∀ (s : StoreCtx) (arg : PatchArg),
      ((patchStore s arg).2.2).map (fun c => c.callback) = s.subscriptions) ∧
    (∀ (s : StoreCtx) (arg : PatchArg) (b1 b2 : Bool),
      (patchStore
        { s with isListening := b1, isSyncListening := b2 } arg).2.2 =
        (patchStore s arg).2.2) := by
  refine ⟨?_, ?_, ?_, ?_⟩
  · intro s p
    simp [patchStore, triggerSubscriptions_eq_map, stateGet]
  · intro s f
    simp [patchStore, triggerSubscriptions_eq_map, stateGet]
  · intro s arg
    cases arg <;>
      simp [patchStore, triggerSubscriptions_eq_map, List.map_map,
        Function.comp_def]
  · intro s arg b1 b2
    cases arg <;> simp [patchStore, triggerSubscriptions_eq_map]

/-- C4: Coalesced listening re-enable.  Every `$patch` leaves `isListening`
false, re-enables `isSyncListening` immediately, installs the fresh token as
the active listener (distinct from the previous one) and schedules exactly
one deferred re-enable carrying that token; a delivered deferred step sets
`isListening` back to true only if its token is still the active one; hence
when two patches overlap before the tick, the first patch's deferred step is
a no-op and only the latest one's re-enable takes effect. -/
theorem patch_listening_reenable (s : StoreCtx) (arg arg2 : PatchArg)
    (hwf : ∀ t, s.activeListener = some t → t < s.nextToken) :
    ((patchStore s arg).1.isListening = false) ∧
    ((patchStore s arg).1.isSyncListening = true) ∧
    ((patchStore s arg).1.activeListener = some s.nextToken) ∧
    ((patchStore s arg).1.tickQueue = s.tickQueue ++ [s.nextToken]) ∧
    ((patchStore s arg).1.activeListener ≠ s.activeListener) ∧
    (∀ (s2 : StoreCtx) (t : Nat) (rest : List Nat), s2.tickQueue = t :: rest →
      (runTickTask s2).isListening =
        (if s2.activeListener = some t then true else s2.isListening)) ∧
    (s.tickQueue = [] →
      (runTickTask ((patchStore (patchStore s arg).1 arg2).1)).isListening
          = false ∧
      (runTickTask (runTickTask
          ((patchStore (patchStore s arg).1 arg2).1))).isListening = true) := by
  refine ⟨?_, ?_, ?_, ?_, ?_, ?_, ?_⟩
  · cases arg <;> rfl
  · cases arg <;> rfl
  · cases arg <;> rfl
  · cases arg <;> rfl
  · cases arg <;>
      · simp only [patchStore]
        intro hcontra
        have := hwf s.nextToken hcontra.symm
        omega
  · intro s2 t rest hq
    rw [runTickTask.eq_def, hq]
    by_cases hc : s2.activeListener = some t <;> simp [hc]
  · intro hq
    constructor <;>
      cases arg <;> cases arg2 <;>
        simp [patchStore, runTickTask, hq, Nat.succ_ne_self]

/-- Witness for C4 at a concrete store with no pending tick and two
overlapping object patches. -/
theorem patch_listening_reenable_witness :
    (runTickTask (runTickTask
        ((patchStore
          (patchStore (StoreCtx.mk "main" [] [] true true none 0 [])
            (.byObject (.obj 1 true false false []))).1
          (.byObject (.obj 2 true false false []))).1))).isListening = true :=
  ((patch_listening_reenable (StoreCtx.mk "main" [] [] true true none 0 [])
      (.byObject (.obj 1 true false false []))
      (.byObject (.obj 2 true false false []))
      (fun _ ht => Option.noConfusion ht)).2.2.2.2.2.2 rfl).2

/-- C5: Action error propagation.  A synchronous throw notifies every
`onError` hook registered during the invocation (each exactly once, in
order, with the error) and then re-throws the identical error; a rejecting
promise notifies the `onError` hooks and the caller's promise rejects with
the original, unchanged error; a fulfilling promise notifies the `after`
hooks with the resolved value and the caller receives that value unchanged.
The wrapper never suppresses or transforms the action's outcome. -/
theorem wrapAction_error_propagation {α ε : Type} :
    (∀ (subs afters errors : List Nat) (e : ε),
      wrapAction subs (ActionRun.mk afters errors (.throws e)) =
        WrapResult.mk (α := α) subs
          (errors.map (fun h => HookCall.errorCall h e))
          (.thrown e) [] none) ∧
    (∀ (subs afters errors : List Nat) (e : ε),
      wrapAction subs (ActionRun.mk afters errors (.promiseRejects e)) =
        WrapResult.mk (α := α) subs []
          .pending (errors.map (fun h => HookCall.errorCall h e))
          (some (.error e))) ∧
    (∀ (subs afters errors : List Nat) (v : α),
      wrapAction subs (ActionRun.mk afters errors (.promiseResolves v)) =
        WrapResult.mk (ε := ε) subs []
          .pending (afters.map (fun h => HookCall.afterCall h v))
          (some (.ok v))) := by
  refine ⟨?_, ?_, ?_⟩ <;>
    · intro subs afters errors x
      simp [wrapAction, triggerSubscriptions_eq_map]

/-- C10: synchronous completion.  When a wrapped action returns a
non-promise value without throwing, every `after` hook registered during the
invocation is called synchronously with the returned value (each exactly
once, in order) before the wrapper hands that same value back to the
caller. -/
theorem wrapAction_sync_after_hooks {α ε : Type} :
    ∀ (subs afters errors : List Nat) (v : α),
      wrapAction subs (ActionRun.mk afters errors (.returns v)) =
        WrapResult.mk (ε := ε) subs
          (afters.map (fun h => HookCall.afterCall h v))
          (.value v) [] none := by
  intro subs afters errors v
  simp [wrapAction, triggerSubscriptions_eq_map]

/-- C6: Idempotent accessor.  Calling the accessor twice with the same id
against the same registry returns the same store identity, with the registry
and the identity supply untouched by the second call (nothing is built); the
first call built and registered the instance (its identity is the one the
partial-store registration allocated); calling the accessor against a
second, distinct registry builds a second instance with a different
identity.  The hypotheses say the declaration's setup body never
unregisters the store being built and only allocates fresh identities,
which holds for every setup body the factory runs. -/
theorem useStore_idempotent (id : String)
    (setup : Registry → World → Registry × World)
    (hPres : ∀ r w i, lookupInst r.instances id = some i →
      lookupInst ((setup r w).1).instances id = some i)
    (hMono : ∀ r w, w.fresh ≤ ((setup r w).2).fresh)
    (r : Registry) (w : World)
    (hNone : lookupInst r.instances id = none) :
    (useStore id setup (useStore id setup r w).2.1
        (useStore id setup r w).2.2 = useStore id setup r w) ∧
    (useStore id setup r w).1 = w.fresh + 1 ∧
    (∀ r2 : Registry, lookupInst r2.instances id = none →
      (useStore id setup r2 (useStore id setup r w).2.2).1 ≠
        (useStore id setup r w).1) := by
  have hP : lookupInst
      ((setup (registerPartial id r w).2.1
        (registerPartial id r w).2.2).1).instances id =
      some ((registerPartial id r w).1) :=
    hPres _ _ _ (registerPartial_lookup id r w)
  have hfirst := useStore_create id setup r w hNone hP
  refine ⟨?_, ?_, ?_⟩
  · rw [hfirst]
    exact useStore_cached id setup _ _ _ hP
  · rw [hfirst]
    rfl
  · intro r2 h2
    rw [hfirst]
    have hP2 : lookupInst
        ((setup (registerPartial id r2
            (setup (registerPartial id r w).2.1
              (registerPartial id r w).2.2).2).2.1
          (registerPartial id r2
            (setup (registerPartial id r w).2.1
              (registerPartial id r w).2.2).2).2.2).1).instances id =
        some ((registerPartial id r2
          (setup (registerPartial id r w).2.1
            (registerPartial id r w).2.2).2).1) :=
      hPres _ _ _ (registerPartial_lookup id r2 _)
    rw [useStore_create id setup r2 _ h2 hP2]
    have hm : ((registerPartial id r w).2.2).fresh ≤
        ((setup (registerPartial id r w).2.1
          (registerPartial id r w).2.2).2).fresh :=
      hMono _ _
    have hrp : ((registerPartial id r w).2.2).fresh = w.fresh + 2 := rfl
    simp only []
    show ((setup (registerPartial id r w).2.1
        (registerPartial id r w).2.2).2).fresh + 1 ≠ w.fresh + 1
    omega

/-- Witness for C6 with a trivial setup body on an empty registry. -/
theorem useStore_idempotent_witness :
    (useStore "main" (fun a b => (a, b)) (Registry.mk [] [])
      (World.mk 0)).1 = 0 + 1 :=
  (useStore_idempotent "main" (fun a b => (a, b))
    (fun _ _ _ h => h) (fun _ _ => Nat.le_refl _)
    (Registry.mk [] []) (World.mk 0) rfl).2.1

/-- C7: Reset semantics.  On an options-declared store with initializer
`() => (count: 1)`, after the state holds `count = 5` (or any value), a
`$reset` recomputes the initial state and applies it through `$patch` with a
mutator function, so `count` reads 1 again, the state slot keeps its
identity, the mutation kind is `patchFunction`, and every registered
subscriber is notified exactly once.  On a setup-declared store (dev build),
`$reset` throws instead of resetting. -/
theorem reset_semantics :
    (∀ (subs : List Nat) (sid : String) (oid oid2 : Nat) (pt rt ra : Bool)
        (cur : Int) (b1 b2 : Bool) (al : Option Nat) (nt : Nat)
        (tq : List Nat),
      getField (stateGet (resetOptionsStore
          (StoreCtx.mk sid
            [(sid, .obj oid pt rt ra [("count", .prim (.num cur))])]
            subs b1 b2 al nt tq)
          (fun _ => .obj oid2 true false false
            [("count", .prim (.num 1))])).1) "count" = .prim (.num 1) ∧
      rootId (stateGet (resetOptionsStore
          (StoreCtx.mk sid
            [(sid, .obj oid pt rt ra [("count", .prim (.num cur))])]
            subs b1 b2 al nt tq)
          (fun _ => .obj oid2 true false false
            [("count", .prim (.num 1))])).1) = some oid ∧
      (resetOptionsStore
          (StoreCtx.mk sid
            [(sid, .obj oid pt rt ra [("count", .prim (.num cur))])]
            subs b1 b2 al nt tq)
          (fun _ => .obj oid2 true false false
            [("count", .prim (.num 1))])).2.1.type = .patchFunction ∧
      ((resetOptionsStore
          (StoreCtx.mk sid
            [(sid, .obj oid pt rt ra [("count", .prim (.num cur))])]
            subs b1 b2 al nt tq)
          (fun _ => .obj oid2 true false false
            [("count", .prim (.num 1))])).2.2).map (fun c => c.callback) =
        subs) ∧
    (∀ id : String, resetSetupStore true id =
      .error ("🍍: Store \"" ++ id ++
        "\" is built using the setup syntax and does not implement $reset().")) := by
  constructor
  · intro subs sid oid oid2 pt rt ra cur b1 b2 al nt tq
    refine ⟨?_, ?_, rfl, ?_⟩
    · simp [resetOptionsStore, patchStore, stateGet, lookupTree, setTree,
        alistGet?, alistSet, objAssign, setField, getField]
    · simp [resetOptionsStore, patchStore, stateGet, lookupTree, setTree,
        alistGet?, alistSet, objAssign, setField, rootId]
    · simp [resetOptionsStore, patchStore, triggerSubscriptions_eq_map,
        List.map_map, Function.comp_def]
  · intro id
    rfl

/-- C8: Getter/state name collision.  Building the getters of an
options-declared store always completes and produces a computed getter for
every declared name (construction does not crash); when a getter name
equals a state field name, a warning naming the getter and the store id is
emitted on the diagnostic channel. -/
theorem options_getter_collision (dev : Bool) (id : String)
    (stateKeys getterNames : List String) :
    (buildOptionsGetters dev id stateKeys getterNames).1 = getterNames ∧
    (∀ name, name ∈ getterNames → stateKeys.contains name = true →
      dev = true →
      getterCollisionWarning name id ∈
        (buildOptionsGetters dev id stateKeys getterNames).2) := by
  constructor
  · induction getterNames with
    | nil => rfl
    | cons n rest ih => simp [buildOptionsGetters, ih]
  · intro name hm hc hd
    subst hd
    induction hm with
    | head rest =>
        simp [buildOptionsGetters, hc]
        exact Or.inl (by simpa using hc)
    | tail b hmem ih => simp [buildOptionsGetters]; right; exact ih

/-- Witness for C8 at a concrete colliding declaration. -/
theorem options_getter_collision_witness :
    getterCollisionWarning "count" "counter" ∈
      (buildOptionsGetters true "counter" ["count"] ["count"]).2 :=
  (options_getter_collision true "counter" ["count"] ["count"]).2 "count"
    (by simp) (by simp) rfl

/-- C9: Partial-instance registration order.  The partial store is
registered in the registry's id-to-instance map strictly before the setup
function runs: the registry state handed to the setup body already maps the
id to the partial instance; an accessor invoked against that mid-build
registry returns the live partial instance and builds nothing; hence a
setup body that circularly uses its own store completes, allocating exactly
the one partial instance. -/
theorem partial_registration_order :
    (∀ (id : String) (r : Registry) (w : World),
      lookupInst ((registerPartial id r w).2.1).instances id =
        some ((registerPartial id r w).1)) ∧
    (∀ (id : String) (setup : Registry → World → Registry × World)
        (r : Registry) (w : World),
      useStore id setup (registerPartial id r w).2.1
          (registerPartial id r w).2.2 =
        ((registerPartial id r w).1, (registerPartial id r w).2.1,
         (registerPartial id r w).2.2)) ∧
    (∀ (id : String) (r : Registry) (w : World),
      createSetupStore id
          (fun r2 w2 => (useStore id (fun a b => (a, b)) r2 w2).2) r w =
        ((registerPartial id r w).1, (registerPartial id r w).2.1,
         (registerPartial id r w).2.2)) := by
  refine ⟨registerPartial_lookup, ?_, ?_⟩
  · intro id setup r w
    exact useStore_cached id setup _ _ _ (registerPartial_lookup id r w)
  · intro id r w
    have e := useStore_cached id (fun a b => (a, b))
      (registerPartial id r w).2.1 (registerPartial id r w).2.2
      (registerPartial id r w).1 (registerPartial_lookup id r w)
    simp [createSetupStore, e]

end ReadPinia
